import Mathlib

/-
Verification development for the ClickHouse excerpt consisting of
src/Processors/Sinks/SinkToStorage.h (the ExceptionKeepingTransform /
SinkToStorage node family) and
src/Processors/Formats/Impl/CapnProtoRowInputFormat.cpp (readMessage).

The SinkToStorage.h translation unit in the excerpt contains only the class
declarations and their documentation; the bodies of
ExceptionKeepingTransform::prepare, ExceptionKeepingTransform::work and
SinkToStorage::transform live in SinkToStorage.cpp, which is not part of the
excerpt.  Those bodies are therefore modelled from the specification
(spec.md sections 4.1-4.4, 5 and 7), as marked on each definition.
CapnProtoRowInputFormat::readMessage is translated directly from the source.
-/

namespace DB

/-- A batch of tabular data: an ordered sequence of columns plus a row count
(spec section 3, "Chunk"; `Chunk` in the source). -/
structure Chunk where
  columns : List Nat
  numRows : Nat
  deriving Repr, DecidableEq

/-- A captured description of a processing failure: kind plus message
(spec section 3, "Fault"; exceptions travelling through `Port::Data` in the
source). -/
structure Fault where
  kind : Nat
  message : String
  deriving Repr, DecidableEq

/-- The atomic message travelling a port: either a Chunk or a Fault
(spec section 3, "Data Unit"; `Port::Data` in the source). -/
inductive DataUnit where
  | chunk : Chunk → DataUnit
  | fault : Fault → DataUnit
  deriving Repr, DecidableEq

/-- Status returned by `prepare` (spec section 4.2): *PullMore* (need input),
*PushReady* (waiting for downstream to drain output), *Ready* (buffered input
to process, triggers `work`), *Finished* (no more work ever). -/
inductive Status where
  | PullMore
  | PushReady
  | Ready
  | Finished
  deriving Repr, DecidableEq

/-- A port: a bounded single-slot buffer plus a closed flag
(spec sections 3 and 4.1). -/
structure Port where
  slot : Option DataUnit
  closed : Bool
  deriving Repr, DecidableEq

/-- Spec section 4.1: `tryPush` succeeds only if the port is empty and not
closed. -/
def Port.tryPush (p : Port) (u : DataUnit) : Option Port :=
  if p.closed || p.slot.isSome then none else some { p with slot := some u }

/-- Spec section 4.1: `tryPop` succeeds only if the port has data, yielding
exactly the unit previously pushed. -/
def Port.tryPop (p : Port) : Option (DataUnit × Port) :=
  match p.slot with
  | some u => some (u, { p with slot := none })
  | none => none

/-- Spec section 4.1: `close` is idempotent; afterwards every `tryPush`
fails. -/
def Port.close (p : Port) : Port :=
  { p with closed := true }

/-- The mutable state of an `ExceptionKeepingTransform` node, following the
private fields of the class in SinkToStorage.h: the two ports, the single
`Port::Data` slot shared by pending input and pending output, and the four
boolean flags. -/
structure TransformState where
  input : Port
  output : Port
  data : Option DataUnit
  ready_input : Bool
  ready_output : Bool
  was_on_start_called : Bool
  was_on_finish_called : Bool
  deriving Repr, DecidableEq

/-- The user-supplied hooks of an `ExceptionKeepingTransform`
(`onStart` / `transform` / `onFinish`, the virtual methods in
SinkToStorage.h).  Exceptions thrown by a hook are modelled as explicit
`Except.error` results (spec section 9, "Exception objects as control
flow"); hooks may carry private state of type `σ`. -/
structure Hooks (σ : Type) where
  onStart : σ → Except Fault σ
  transform : σ → Chunk → Except Fault (σ × Chunk)
  onFinish : σ → Except Fault σ

/-- Modelled from the spec (section 4.3 step 5 and section 7): handling of a
failure raised by `onFinish`.  The failure is wrapped as a Fault and placed
on the output port, unless the output is already closed (or has no
capacity), in which case it has no deliverable destination and is dropped at
this boundary.  The body of `ExceptionKeepingTransform::prepare` is in
SinkToStorage.cpp, which is not part of the excerpt. -/
def placeFinishFault (out : Port) (f : Fault) : Port :=
  if out.closed then out
  else
    match out.tryPush (DataUnit.fault f) with
    | some o => o
    | none => out

/-- The fresh state of a node: both ports open and empty, no buffered data,
all lifecycle flags false. -/
def initNode : TransformState :=
  { input := { slot := none, closed := false }
  , output := { slot := none, closed := false }
  , data := none
  , ready_input := false
  , ready_output := false
  , was_on_start_called := false
  , was_on_finish_called := false }

/-- Modelled from the spec: `ExceptionKeepingTransform::prepare` (its body is
in SinkToStorage.cpp, which is not part of the excerpt).  Follows the
priority chain of spec section 4.3:
1. output closed by downstream: close the input side and report Finished;
2. run `onStart` once, propagating its failure synchronously (the
   `Except.error` result);
3. if a processed Data Unit is buffered for output, push it when the port
   has capacity (draining has priority over pulling more input);
4. if a Chunk is already buffered as pending input, report Ready
   (`prepare` is pure inspection and never pops a second unit);
5. else pop the input port: a Fault moves straight to the output buffer,
   a Chunk becomes pending input and triggers `work` via Ready;
6. else if the input is closed and empty, run `onFinish` once (a failure is
   wrapped as a trailing Fault via `placeFinishFault`), close the output
   and report Finished;
7. otherwise report PullMore. -/
def prepare {σ : Type} (h : Hooks σ) (st : σ) (s : TransformState) :
    Except Fault (Status × σ × TransformState) :=
  if s.output.closed then
    Except.ok (Status.Finished, st, { s with input := s.input.close })
  else
    match (if s.was_on_start_called then Except.ok st else h.onStart st :
        Except Fault σ) with
    | Except.error f => Except.error f
    | Except.ok st1 =>
      let s1 := { s with was_on_start_called := true }
      if s1.ready_output then
        match s1.data with
        | some u =>
          match s1.output.tryPush u with
          | some out2 =>
            Except.ok (Status.PushReady, st1,
              { s1 with output := out2, data := none, ready_output := false })
          | none => Except.ok (Status.PushReady, st1, s1)
        | none => Except.ok (Status.PushReady, st1, s1)
      else if s1.ready_input then
        Except.ok (Status.Ready, st1, s1)
      else
        match s1.input.tryPop with
        | some (u, in2) =>
          match u with
          | DataUnit.fault f =>
            Except.ok (Status.PushReady, st1,
              { s1 with input := in2, data := some (DataUnit.fault f),
                        ready_output := true })
          | DataUnit.chunk c =>
            Except.ok (Status.Ready, st1,
              { s1 with input := in2, data := some (DataUnit.chunk c),
                        ready_input := true })
        | none =>
          if s1.input.closed && !s1.was_on_finish_called then
            let s2 := { s1 with was_on_finish_called := true }
            match h.onFinish st1 with
            | Except.ok st2 =>
              Except.ok (Status.Finished, st2,
                { s2 with output := s2.output.close })
            | Except.error f =>
              Except.ok (Status.Finished, st1,
                { s2 with output := (placeFinishFault s2.output f).close })
          else if s1.input.closed then
            Except.ok (Status.Finished, st1,
              { s1 with output := s1.output.close })
          else
            Except.ok (Status.PullMore, st1, s1)

/-- Modelled from the spec (section 4.3, `work()`; the body is in
SinkToStorage.cpp, which is not part of the excerpt): take the buffered
pending input Chunk and call `transform`.  On failure the partially produced
Chunk is discarded and replaced by a Fault built from that failure; otherwise
the returned Chunk becomes the buffered output.  Either way the
pending-input slot is cleared and the output-pending flag is set. -/
def work {σ : Type} (h : Hooks σ) (st : σ) (s : TransformState) :
    σ × TransformState :=
  if s.ready_input then
    match s.data with
    | some (DataUnit.chunk c) =>
      match h.transform st c with
      | Except.ok (st', c') =>
        (st', { s with data := some (DataUnit.chunk c'),
                       ready_input := false, ready_output := true })
      | Except.error f =>
        (st, { s with data := some (DataUnit.fault f),
                      ready_input := false, ready_output := true })
    | _ => (st, s)
  else (st, s)

/-- State of a run of one node under the external scheduler of spec section 2:
the units upstream has still to produce, the node state, the hook state, the
units downstream has popped so far (in order), whether the node has reported
Finished, and a synchronous failure escaped from `prepare` (spec section 7,
setup failure). -/
structure SchedState (σ : Type) where
  pending : List DataUnit
  node : TransformState
  sigma : σ
  outputs : List DataUnit
  finished : Bool
  failure : Option Fault

/-- One cooperative scheduling step (spec sections 2 and 5): downstream pops
the output port if it has data; upstream pushes its next unit into the input
port when possible, closing the port once exhausted; then the scheduler polls
`prepare` and, on *Ready*, runs `work`.  A failure escaping `prepare` aborts
the node's participation. -/
def schedStep {σ : Type} (h : Hooks σ) (ss : SchedState σ) : SchedState σ :=
  let popped :=
    match ss.node.output.tryPop with
    | some (u, p) =>
      (ss.outputs ++ [u], { ss.node with output := p })
    | none => (ss.outputs, ss.node)
  let outs := popped.1
  let node1 := popped.2
  let fed :=
    match ss.pending with
    | [] => (([] : List DataUnit), { node1 with input := node1.input.close })
    | u :: rest =>
      match node1.input.tryPush u with
      | some p => (rest, { node1 with input := p })
      | none => (u :: rest, node1)
  let pending2 := fed.1
  let node2 := fed.2
  match prepare h ss.sigma node2 with
  | Except.error f =>
    { pending := pending2, node := node2, sigma := ss.sigma, outputs := outs,
      finished := true, failure := some f }
  | Except.ok (status, st', node3) =>
    match status with
    | Status.Ready =>
      let stepped := work h st' node3
      { pending := pending2, node := stepped.2, sigma := stepped.1,
        outputs := outs, finished := false, failure := none }
    | Status.Finished =>
      { pending := pending2, node := node3, sigma := st', outputs := outs,
        finished := true, failure := none }
    | _ =>
      { pending := pending2, node := node3, sigma := st', outputs := outs,
        finished := false, failure := none }

/-- Iterate `schedStep` until the node has finished or the fuel runs out. -/
def loop {σ : Type} (h : Hooks σ) : Nat → SchedState σ → SchedState σ
  | 0, ss => ss
  | n + 1, ss => if ss.finished then ss else loop h n (schedStep h ss)

/-- After the node finishes, downstream pops a final unit still sitting in the
output port slot (the trailing Fault of a failed `onFinish`, spec section 4.3
step 5). -/
def drain {σ : Type} (ss : SchedState σ) : SchedState σ :=
  match ss.node.output.tryPop with
  | some (u, p) =>
    { ss with outputs := ss.outputs ++ [u], node := { ss.node with output := p } }
  | none => ss

/-- Run a fresh node to completion against the given upstream sequence:
2 scheduler steps per unit plus 2 closing steps always suffice. -/
def run {σ : Type} (h : Hooks σ) (st : σ) (inputs : List DataUnit) :
    SchedState σ :=
  drain (loop h (2 * inputs.length + 2)
    { pending := inputs, node := initNode, sigma := st, outputs := [],
      finished := false, failure := none })

/-- The per-unit input/output relation of spec sections 4.3 and 7: an
upstream Fault passes through verbatim; a Chunk is transformed, a transform
failure replacing it by a Fault in place. -/
def applyUnit {σ : Type} (h : Hooks σ) (st : σ) : DataUnit → σ × DataUnit
  | DataUnit.chunk c =>
    match h.transform st c with
    | Except.ok (st', c') => (st', DataUnit.chunk c')
    | Except.error f => (st, DataUnit.fault f)
  | DataUnit.fault f => (st, DataUnit.fault f)

/-- `applyUnit` folded over a whole upstream sequence, threading the hook
state left to right. -/
def applyUnits {σ : Type} (h : Hooks σ) : σ → List DataUnit → σ × List DataUnit
  | st, [] => (st, [])
  | st, u :: l =>
    let p := applyUnit h st u
    let q := applyUnits h p.1 l
    (q.1, p.2 :: q.2)

/-- An opaque table lock handle (`TableLockHolder` in the source; spec
section 3, "Lock Handle"). -/
structure TableLockHolder where
  id : Nat
  deriving Repr, DecidableEq

/-- The lock-relevant state of a `SinkToStorage` node: its transform state
plus the `table_locks` vector (SinkToStorage.h line 65). -/
structure SinkToStorageState where
  node : TransformState
  table_locks : List TableLockHolder
  deriving Repr, DecidableEq

/-- SinkToStorage.h line 59: `addTableLock` appends the handle to
`table_locks` (`push_back`); nothing is ever removed. -/
def addTableLock (s : SinkToStorageState) (lock : TableLockHolder) :
    SinkToStorageState :=
  { s with table_locks := s.table_locks ++ [lock] }

/-- Modelled from the spec (section 3, "Lock Handle", and section 5): the
implicit C++ destructor of `SinkToStorage` releases every held handle exactly
once when the node is destroyed, regardless of the lifecycle state it died
in.  The returned list is the sequence of handles released. -/
def destroySink (s : SinkToStorageState) : List TableLockHolder :=
  s.table_locks

/-- The Chunk forwarded by a Sink in place of transformed data (spec section
4.4: a null/empty Chunk is forwarded, the output side only carries Faults and
completion). -/
def emptyChunk : Chunk :=
  { columns := [], numRows := 0 }

/-- Modelled from the spec (section 4.4; the body of
`SinkToStorage::transform` is in SinkToStorage.cpp, which is not part of the
excerpt): a Sink's `transform` calls the `consume(Chunk)` hook, which
performs the write and produces no output Chunk of its own; an empty Chunk is
forwarded.  `onStart` and `onFinish` keep their no-op defaults from
SinkToStorage.h. -/
def mkSinkHooks {σ : Type} (consume : σ → Chunk → Except Fault σ) : Hooks σ :=
  { onStart := fun st => Except.ok st
  , transform := fun st c =>
      match consume st c with
      | Except.ok st' => Except.ok (st', emptyChunk)
      | Except.error f => Except.error f
  , onFinish := fun st => Except.ok st }

/-- SinkToStorage.h line 78: `NullSinkToStorage::consume` has an empty body;
with the hook state read as the list of Chunks written so far, it writes
nothing. -/
def nullConsume (written : List Chunk) (_c : Chunk) :
    Except Fault (List Chunk) :=
  Except.ok written

/-- The hooks of a `NullSinkToStorage` node. -/
def nullSinkHooks : Hooks (List Chunk) :=
  mkSinkHooks nullConsume

/-- Hook-call events, used to observe the invocation order of the lifecycle
hooks. -/
inductive Event where
  | start
  | xform : Chunk → Event
  | finish
  deriving Repr, DecidableEq

/-- Instrumented hooks whose state is the log of hook calls so far: each hook
succeeds and appends its event. -/
def logHooks : Hooks (List Event) :=
  { onStart := fun tr => Except.ok (tr ++ [Event.start])
  , transform := fun tr c => Except.ok (tr ++ [Event.xform c], c)
  , onFinish := fun tr => Except.ok (tr ++ [Event.finish]) }

/-- The transform events a given upstream sequence gives rise to: one per
Chunk, none for a Fault. -/
def transformEvents (l : List DataUnit) : List Event :=
  l.filterMap fun u =>
    match u with
    | DataUnit.chunk c => some (Event.xform c)
    | DataUnit.fault _ => none

/-! ## CapnProtoRowInputFormat::readMessage
Translated from src/Processors/Formats/Impl/CapnProtoRowInputFormat.cpp,
lines 31-64.  The `ReadBuffer` is modelled as the list of bytes still to be
read; `readStrict` consumes an exact number of bytes or fails (the underlying
buffer throws when it cannot serve the whole read). -/

/-- Error codes raised by `readMessage` and its read primitives. -/
inductive ErrorCode where
  | INCORRECT_DATA
  | CANNOT_READ_ALL_DATA
  deriving Repr, DecidableEq

/-- `ReadBuffer::readStrict(p, n)`: yield exactly `n` bytes and the rest of
the stream, or fail when the stream is shorter. -/
def readStrict (n : Nat) (buf : List Nat) :
    Except ErrorCode (List Nat × List Nat) :=
  if n ≤ buf.length then Except.ok (buf.take n, buf.drop n)
  else Except.error ErrorCode.CANNOT_READ_ALL_DATA

/-- Decode 4 bytes as a little-endian `uint32_t` (the
`reinterpret_cast<char*>(&segment_count)` read in the source). -/
def u32FromBytes (bs : List Nat) : Nat :=
  match bs with
  | [b0, b1, b2, b3] => b0 + 256 * (b1 + 256 * (b2 + 256 * b3))
  | _ => 0

/-- The loop at lines 49-50 of the source: `n` successive
`readStrict(..., sizeof(uint32_t))` calls, returning the bytes read in
order. -/
def readWords : Nat → List Nat → Except ErrorCode (List Nat × List Nat)
  | 0, buf => Except.ok ([], buf)
  | n + 1, buf =>
    match readStrict 4 buf with
    | Except.error e => Except.error e
    | Except.ok (w, buf1) =>
      match readWords n buf1 with
      | Except.error e => Except.error e
      | Except.ok (ws, buf2) => Except.ok (w ++ ws, buf2)

/-- `capnp::expectedSizeInWordsFromPrefix` (external capnproto library,
called at line 53 of the source): the message header occupies
`(segment_count + 1) / 2 + 1` words and the body the sum of the segment
sizes listed in the header. -/
def expectedSizeInWordsFromPrefix (segment_count : Nat) (sizes : List Nat) :
    Nat :=
  ((segment_count + 1) / 2 + 1) + sizes.sum

/-- `CapnProtoRowInputFormat::readMessage` (lines 31-64 of the source): read
a 32-bit segment count; reject 512 or more segments as INCORRECT_DATA before
anything else is read; read the `segment_count + 1` segment sizes; compute
the total message size from the prefix; read the body; return the assembled
message bytes and the rest of the stream. -/
def readMessage (buf : List Nat) : Except ErrorCode (List Nat × List Nat) :=
  match readStrict 4 buf with
  | Except.error e => Except.error e
  | Except.ok (scBytes, buf1) =>
    let segment_count := u32FromBytes scBytes
    if 512 ≤ segment_count then Except.error ErrorCode.INCORRECT_DATA
    else
      match readWords (segment_count + 1) buf1 with
      | Except.error e => Except.error e
      | Except.ok (sizeBytes, buf2) =>
        let prefix_size := (2 + segment_count) * 4
        let sizes := (List.range (segment_count + 1)).map fun i =>
          u32FromBytes ((sizeBytes.drop (4 * i)).take 4)
        let expected_words := expectedSizeInWordsFromPrefix segment_count sizes
        let expected_bytes := expected_words * 8
        let data_size := expected_bytes - prefix_size
        match readStrict data_size buf2 with
        | Except.error e => Except.error e
        | Except.ok (dataBytes, buf3) =>
          Except.ok (scBytes ++ sizeBytes ++ dataBytes, buf3)

/-! ## Canonical run states and invariants -/

/-- Mid-stream scheduler state: the node has started, holds one processed
Data Unit `v` pending output, both port slots are empty, upstream still has
`l` to produce and downstream has popped `acc` so far.  `b` records whether
the input port has already been closed (which the driver only does once
`l = []`). -/
def stateA {σ : Type} (v : DataUnit) (l : List DataUnit) (acc : List DataUnit)
    (st : σ) (b : Bool) : SchedState σ :=
  { pending := l
  , node :=
    { input := { slot := none, closed := b }
    , output := { slot := none, closed := false }
    , data := some v
    , ready_input := false
    , ready_output := true
    , was_on_start_called := true
    , was_on_finish_called := false }
  , sigma := st, outputs := acc, finished := false, failure := none }

/-- The state one scheduler step after `stateA` when upstream still had `u`
to feed: `u` sits in the input port, the processed `v` has been pushed to
the output port. -/
def stateB {σ : Type} (u v : DataUnit) (l : List DataUnit)
    (acc : List DataUnit) (st : σ) : SchedState σ :=
  { pending := l
  , node :=
    { input := { slot := some u, closed := false }
    , output := { slot := some v, closed := false }
    , data := none
    , ready_input := false
    , ready_output := false
    , was_on_start_called := true
    , was_on_finish_called := false }
  , sigma := st, outputs := acc, finished := false, failure := none }

/-- The node state after a completed run: both ports closed and empty, no
buffered data, both lifecycle hooks done. -/
def finNode : TransformState :=
  { input := { slot := none, closed := true }
  , output := { slot := none, closed := true }
  , data := none
  , ready_input := false
  , ready_output := false
  , was_on_start_called := true
  , was_on_finish_called := true }

/-- The scheduler state just after the node reports Finished, before the
final drain: a failing `onFinish` leaves its Fault in the closed output
port's slot. -/
def preFinal {σ : Type} (h : Hooks σ) (st : σ) (outs : List DataUnit) :
    SchedState σ :=
  match h.onFinish st with
  | Except.ok st' =>
    { pending := [], node := finNode, sigma := st', outputs := outs,
      finished := true, failure := none }
  | Except.error f =>
    { pending := []
    , node := { finNode with
        output := { slot := some (DataUnit.fault f), closed := true } }
    , sigma := st, outputs := outs, finished := true, failure := none }

/-- The final scheduler state of a complete run: a failing `onFinish`
contributes a trailing Fault to the output sequence. -/
def finalRun {σ : Type} (h : Hooks σ) (st : σ) (outs : List DataUnit) :
    SchedState σ :=
  match h.onFinish st with
  | Except.ok st' =>
    { pending := [], node := finNode, sigma := st', outputs := outs,
      finished := true, failure := none }
  | Except.error f =>
    { pending := [], node := finNode, sigma := st,
      outputs := outs ++ [DataUnit.fault f], finished := true, failure := none }

/-- Number of pending input Chunks a node holds (spec section 3 invariant). -/
def pendingInputCount (s : TransformState) : Nat :=
  if s.ready_input then 1 else 0

/-- Number of pending output Data Units a node holds (spec section 3
invariant). -/
def pendingOutputCount (s : TransformState) : Nat :=
  if s.ready_output then 1 else 0

/-- The single-slot double-buffering invariant: the one `data` slot is never
claimed by the pending-input side and the pending-output side at the same
time. -/
def Inv (s : TransformState) : Prop :=
  ¬(s.ready_input = true ∧ s.ready_output = true)

/-- A concrete hook instance used to evaluate the state machine at specific
inputs: it counts transform calls in its state and never fails. -/
def probeHooks : Hooks Nat :=
  { onStart := fun st => Except.ok st
  , transform := fun st c => Except.ok (st + 1, c)
  , onFinish := fun st => Except.ok st }

/-- A hook instance whose transform fails on every Chunk with zero rows. -/
def flakyHooks : Hooks Nat :=
  { onStart := fun st => Except.ok st
  , transform := fun st c =>
      if c.numRows = 0 then Except.error { kind := 9, message := "t" }
      else Except.ok (st + 1, c)
  , onFinish := fun st => Except.ok st }

/-- A hook instance whose `onStart` fails. -/
def badStartHooks : Hooks Nat :=
  { onStart := fun _ => Except.error { kind := 3, message := "start" }
  , transform := fun st c => Except.ok (st, c)
  , onFinish := fun st => Except.ok st }

/-- A hook instance whose `onFinish` fails. -/
def badFinishHooks : Hooks Nat :=
  { onStart := fun st => Except.ok st
  , transform := fun st c => Except.ok (st, c)
  , onFinish := fun _ => Except.error { kind := 5, message := "finish" } }

/-- A sample Chunk used by concrete evaluations. -/
def sampleChunk : Chunk :=
  { columns := [1, 2], numRows := 2 }

/-- A sample zero-row Chunk, rejected by `flakyHooks`. -/
def sampleBadChunk : Chunk :=
  { columns := [3], numRows := 0 }

/-- A sample upstream Fault used by concrete evaluations. -/
def sampleFault : Fault :=
  { kind := 7, message := "upstream" }

/-- A started node state whose input port is closed and empty and whose
teardown hook has not yet run. -/
def sFin : TransformState :=
  { input := { slot := none, closed := true }
  , output := { slot := none, closed := false }
  , data := none
  , ready_input := false
  , ready_output := false
  , was_on_start_called := true
  , was_on_finish_called := false }

/-- A node state whose output port has been closed by downstream while a
buffered-but-unprocessed Chunk is still pending. -/
def sClosed : TransformState :=
  { input := { slot := none, closed := false }
  , output := { slot := none, closed := true }
  , data := some (DataUnit.chunk sampleChunk)
  , ready_input := true
  , ready_output := false
  , was_on_start_called := true
  , was_on_finish_called := false }

/-! ## Scheduler loop lemmas -/

theorem loop_finished {σ : Type} (h : Hooks σ) (n : Nat) (ss : SchedState σ)
    (hf : ss.finished = true) : loop h n ss = ss := by
  cases n with
  | zero => rfl
  | succ n => simp [loop, hf]

theorem loop_add {σ : Type} (h : Hooks σ) (a b : Nat) (ss : SchedState σ) :
    loop h (a + b) ss = loop h b (loop h a ss) := by
  induction a generalizing ss with
  | zero => simp [loop]
  | succ a ih =>
    by_cases hf : ss.finished = true
    · rw [loop_finished h a.succ ss hf, loop_finished h (a.succ + b) ss hf,
        loop_finished h b ss hf]
    · have hf' : ss.finished = false := by
        cases hff : ss.finished
        · rfl
        · exact absurd hff hf
      have h1 : a + 1 + b = (a + b) + 1 := by omega
      rw [h1]
      show (if ss.finished then ss else loop h (a + b) (schedStep h ss)) = _
      rw [hf']
      simp only [Bool.false_eq_true, if_false]
      rw [ih]
      congr 1
      show _ = (if ss.finished then ss else loop h a (schedStep h ss))
      rw [hf']
      simp

theorem drain_preFinal {σ : Type} (h : Hooks σ) (st : σ)
    (outs : List DataUnit) :
    drain (preFinal h st outs) = finalRun h st outs := by
  cases hfin : h.onFinish st with
  | ok st' => simp [drain, preFinal, finalRun, hfin, finNode, Port.tryPop]
  | error f => simp [drain, preFinal, finalRun, hfin, finNode, Port.tryPop]

/-- Two scheduler steps carry `stateA` across one more upstream unit. -/
theorem schedStep_stateA_cons {σ : Type} (h : Hooks σ) (v u : DataUnit)
    (l acc : List DataUnit) (st : σ) :
    schedStep h (stateA v (u :: l) acc st false) = stateB u v l acc st := by
  simp [schedStep, stateA, stateB, prepare, Port.tryPop, Port.tryPush,
    Port.close]

theorem schedStep_stateB {σ : Type} (h : Hooks σ) (u v : DataUnit)
    (l acc : List DataUnit) (st : σ) :
    schedStep h (stateB u v l acc st) =
      stateA (applyUnit h st u).2 l (acc ++ [v]) (applyUnit h st u).1
        (l.isEmpty) := by
  cases l with
  | nil =>
    cases u with
    | chunk c =>
      cases htr : h.transform st c with
      | ok p =>
        simp [schedStep, stateA, stateB, prepare, work, applyUnit,
          Port.tryPop, Port.tryPush, Port.close, htr]
      | error f =>
        simp [schedStep, stateA, stateB, prepare, work, applyUnit,
          Port.tryPop, Port.tryPush, Port.close, htr]
    | fault f =>
      simp [schedStep, stateA, stateB, prepare, work, applyUnit,
        Port.tryPop, Port.tryPush, Port.close]
  | cons u' l' =>
    cases u with
    | chunk c =>
      cases htr : h.transform st c with
      | ok p =>
        simp [schedStep, stateA, stateB, prepare, work, applyUnit,
          Port.tryPop, Port.tryPush, Port.close, htr]
      | error f =>
        simp [schedStep, stateA, stateB, prepare, work, applyUnit,
          Port.tryPop, Port.tryPush, Port.close, htr]
    | fault f =>
      simp [schedStep, stateA, stateB, prepare, work, applyUnit,
        Port.tryPop, Port.tryPush, Port.close]

/-- From the last `stateA` (upstream exhausted) the run finishes in two
steps. -/
theorem loop_stateA_nil {σ : Type} (h : Hooks σ) (v : DataUnit)
    (acc : List DataUnit) (st : σ) (b : Bool) :
    loop h 2 (stateA v [] acc st b) = preFinal h st (acc ++ [v]) := by
  cases hfin : h.onFinish st with
  | ok st' =>
    simp [loop, schedStep, stateA, preFinal, finNode, prepare, work,
      Port.tryPop, Port.tryPush, Port.close, placeFinishFault, hfin]
  | error f =>
    simp [loop, schedStep, stateA, preFinal, finNode, prepare, work,
      Port.tryPop, Port.tryPush, Port.close, placeFinishFault, hfin]

/-- The cycle invariant: from `stateA` the loop drives the remaining
upstream sequence through `applyUnit` one unit per two steps and finishes. -/
theorem loop_stateA {σ : Type} (h : Hooks σ) (l : List DataUnit) :
    ∀ (v : DataUnit) (acc : List DataUnit) (st : σ) (b : Bool),
      b = false ∨ l = [] →
      loop h (2 * l.length + 2) (stateA v l acc st b) =
        preFinal h (applyUnits h st l).1
          (acc ++ v :: (applyUnits h st l).2) := by
  induction l with
  | nil =>
    intro v acc st b _
    simpa [applyUnits] using loop_stateA_nil h v acc st b
  | cons u t ih =>
    intro v acc st b hb
    have hbf : b = false := by
      rcases hb with hb | hb
      · exact hb
      · exact absurd hb (by simp)
    subst hbf
    have hlen : 2 * (u :: t).length + 2 = 2 + (2 * t.length + 2) := by
      simp [List.length_cons]; omega
    rw [hlen, loop_add]
    have h2 : loop h 2 (stateA v (u :: t) acc st false) =
        stateA (applyUnit h st u).2 t (acc ++ [v]) (applyUnit h st u).1
          t.isEmpty := by
      show (if (stateA v (u :: t) acc st false).finished then _
        else loop h 1 (schedStep h (stateA v (u :: t) acc st false))) = _
      rw [schedStep_stateA_cons]
      show (if (stateA v (u :: t) acc st false).finished then _
        else if (stateB u v t acc st).finished then _
          else loop h 0 (schedStep h (stateB u v t acc st))) = _
      rw [schedStep_stateB]
      simp [stateA, stateB, loop]
    rw [h2]
    have hnext : t.isEmpty = false ∨ t = [] := by
      cases t
      · exact Or.inr rfl
      · exact Or.inl rfl
    rw [ih (applyUnit h st u).2 (acc ++ [v]) (applyUnit h st u).1 t.isEmpty
      hnext]
    simp [applyUnits]

/-- The first scheduler step of a nonempty run reaches `stateA`. -/
theorem schedStep_init_cons {σ : Type} (h : Hooks σ) (σ0 σ1 : σ)
    (u : DataUnit) (l : List DataUnit) (hs : h.onStart σ0 = Except.ok σ1) :
    schedStep h
      { pending := u :: l, node := initNode, sigma := σ0, outputs := [],
        finished := false, failure := none } =
      stateA (applyUnit h σ1 u).2 l [] (applyUnit h σ1 u).1 false := by
  cases u with
  | chunk c =>
    cases htr : h.transform σ1 c with
    | ok p =>
      simp [schedStep, initNode, stateA, prepare, work, applyUnit,
        Port.tryPop, Port.tryPush, Port.close, hs, htr]
    | error f =>
      simp [schedStep, initNode, stateA, prepare, work, applyUnit,
        Port.tryPop, Port.tryPush, Port.close, hs, htr]
  | fault f =>
    simp [schedStep, initNode, stateA, prepare, work, applyUnit,
      Port.tryPop, Port.tryPush, Port.close, hs]

/-- Characterization of a complete run: when `onStart` succeeds, the run
applies `applyUnit` to every upstream unit in order and ends in `finalRun`,
which appends the trailing Fault of a failing `onFinish`. -/
theorem run_spec {σ : Type} (h : Hooks σ) (σ0 σ1 : σ)
    (inputs : List DataUnit) (hs : h.onStart σ0 = Except.ok σ1) :
    run h σ0 inputs =
      finalRun h (applyUnits h σ1 inputs).1 (applyUnits h σ1 inputs).2 := by
  cases inputs with
  | nil =>
    have h2 : loop h 2
        { pending := [], node := initNode, sigma := σ0, outputs := [],
          finished := false, failure := none } = preFinal h σ1 [] := by
      cases hfin : h.onFinish σ1 with
      | ok st' =>
        simp [loop, schedStep, initNode, prepare, Port.tryPop, Port.tryPush,
          Port.close, placeFinishFault, preFinal, finNode, hs, hfin]
      | error f =>
        simp [loop, schedStep, initNode, prepare, Port.tryPop, Port.tryPush,
          Port.close, placeFinishFault, preFinal, finNode, hs, hfin]
    show drain (loop h (2 * ([] : List DataUnit).length + 2) _) = _
    simp only [List.length_nil, Nat.mul_zero, Nat.zero_add]
    rw [h2, drain_preFinal]
    simp [applyUnits]
  | cons u l =>
    show drain (loop h (2 * (u :: l).length + 2) _) = _
    have hlen : 2 * (u :: l).length + 2 = 1 + (2 * l.length + 2) + 1 := by
      simp [List.length_cons]; omega
    rw [hlen, loop_add, loop_add]
    have h1 : loop h 1
        { pending := u :: l, node := initNode, sigma := σ0, outputs := [],
          finished := false, failure := none } =
        stateA (applyUnit h σ1 u).2 l [] (applyUnit h σ1 u).1 false := by
      show (if _ then _ else loop h 0 _) = _
      rw [if_neg (by simp)]
      show schedStep h _ = _
      exact schedStep_init_cons h σ0 σ1 u l hs
    rw [h1]
    rw [loop_stateA h l (applyUnit h σ1 u).2 [] (applyUnit h σ1 u).1 false
      (Or.inl rfl)]
    have hfinished :
        (preFinal h (applyUnits h (applyUnit h σ1 u).1 l).1
          ([] ++ (applyUnit h σ1 u).2 ::
            (applyUnits h (applyUnit h σ1 u).1 l).2)).finished = true := by
      cases hfin : h.onFinish (applyUnits h (applyUnit h σ1 u).1 l).1 with
      | ok st' => simp [preFinal, hfin]
      | error f => simp [preFinal, hfin]
    rw [loop_finished h 1 _ hfinished, drain_preFinal]
    simp [applyUnits]

/-! ## Lemmas about the per-unit relation -/

theorem applyUnits_length {σ : Type} (h : Hooks σ) :
    ∀ (l : List DataUnit) (st : σ),
      (applyUnits h st l).2.length = l.length := by
  intro l
  induction l with
  | nil => intro st; simp [applyUnits]
  | cons u t ih => intro st; simp [applyUnits, ih]

theorem applyUnits_getElem {σ : Type} (h : Hooks σ) :
    ∀ (l : List DataUnit) (st : σ) (i : Nat),
      (applyUnits h st l).2[i]? =
        (l[i]?).map fun u => (applyUnit h (applyUnits h st (l.take i)).1 u).2 := by
  intro l
  induction l with
  | nil => intro st i; simp [applyUnits]
  | cons u t ih =>
    intro st i
    cases i with
    | zero => simp [applyUnits]
    | succ i => simp [applyUnits, ih]

theorem applyUnit_log (tr : List Event) (u : DataUnit) :
    applyUnit logHooks tr u =
      (tr ++ transformEvents [u], u) := by
  cases u with
  | chunk c => simp [applyUnit, logHooks, transformEvents]
  | fault f => simp [applyUnit, logHooks, transformEvents]

theorem applyUnits_log :
    ∀ (l : List DataUnit) (tr : List Event),
      applyUnits logHooks tr l = (tr ++ transformEvents l, l) := by
  intro l
  induction l with
  | nil => intro tr; simp [applyUnits, transformEvents]
  | cons u t ih =>
    intro tr
    simp only [applyUnits, applyUnit_log, ih]
    cases u with
    | chunk c => simp [transformEvents]
    | fault f => simp [transformEvents]

theorem applyUnit_nullSink (w : List Chunk) (c : Chunk) :
    applyUnit nullSinkHooks w (DataUnit.chunk c) =
      (w, DataUnit.chunk emptyChunk) := rfl

theorem applyUnits_nullSink :
    ∀ (chunks : List Chunk) (w : List Chunk),
      applyUnits nullSinkHooks w (chunks.map DataUnit.chunk) =
        (w, chunks.map fun _ => DataUnit.chunk emptyChunk) := by
  intro chunks
  induction chunks with
  | nil => intro w; simp [applyUnits]
  | cons c t ih =>
    intro w
    simp only [List.map_cons, applyUnits, applyUnit_nullSink, ih]

theorem tryPop_eq_none_iff (p : Port) : p.tryPop = none ↔ p.slot = none := by
  cases hs : p.slot <;> simp [Port.tryPop, hs]

/-! ## Claims -/

/-- C1: for every input sequence of interleaved Chunks and Faults fed through
an ExceptionKeepingTransform whose transform hook never fails (and whose
lifecycle hooks succeed), the output sequence has the same length and
identical shape in the same order: every Fault at position i appears on the
output at position i verbatim, and every Chunk at position i appears as the
transformed Chunk at position i. -/
theorem claim_c1 {σ : Type} (h : Hooks σ) (σ0 σ1 : σ) (inputs : List DataUnit)
    (hs : h.onStart σ0 = Except.ok σ1)
    (ht : ∀ (st : σ) (c : Chunk), ∃ st' c',
      h.transform st c = Except.ok (st', c'))
    (hf : ∀ st : σ, ∃ st', h.onFinish st = Except.ok st') :
    (run h σ0 inputs).outputs.length = inputs.length ∧
    (∀ (i : Nat) (f : Fault), inputs[i]? = some (DataUnit.fault f) →
      (run h σ0 inputs).outputs[i]? = some (DataUnit.fault f)) ∧
    (∀ (i : Nat) (c : Chunk), inputs[i]? = some (DataUnit.chunk c) →
      ∃ st' c',
        h.transform (applyUnits h σ1 (inputs.take i)).1 c =
          Except.ok (st', c') ∧
        (run h σ0 inputs).outputs[i]? = some (DataUnit.chunk c')) := by
  obtain ⟨σ3, hfin⟩ := hf (applyUnits h σ1 inputs).1
  have hrun : (run h σ0 inputs).outputs = (applyUnits h σ1 inputs).2 := by
    rw [run_spec h σ0 σ1 inputs hs]
    simp [finalRun, hfin]
  refine ⟨?_, ?_, ?_⟩
  · rw [hrun, applyUnits_length]
  · intro i f hi
    rw [hrun, applyUnits_getElem, hi]
    simp [applyUnit]
  · intro i c hi
    obtain ⟨st', c', htr⟩ := ht (applyUnits h σ1 (inputs.take i)).1 c
    refine ⟨st', c', htr, ?_⟩
    rw [hrun, applyUnits_getElem, hi]
    simp [applyUnit, htr]

/-- Witness for C1 at a concrete two-unit stream through `probeHooks`. -/
theorem claim_c1_witness :
    (run probeHooks 0
      [DataUnit.chunk sampleChunk, DataUnit.fault sampleFault]).outputs.length
      = 2 := by
  have h := (claim_c1 probeHooks 0 0
    [DataUnit.chunk sampleChunk, DataUnit.fault sampleFault] rfl
    (fun st c => ⟨st + 1, c, rfl⟩) (fun st => ⟨st, rfl⟩)).1
  simpa using h

/-- C2: if the transform hook fails on the Chunk at some position, `work`
discards the partially produced Chunk and buffers a Fault built from that
failure, the Fault appears at exactly that position of the output stream,
and every other position is processed exactly as without the failure. -/
theorem claim_c2 {σ : Type} (h : Hooks σ) (σ0 σ1 : σ) (inputs : List DataUnit)
    (hs : h.onStart σ0 = Except.ok σ1)
    (hf : ∀ st : σ, ∃ st', h.onFinish st = Except.ok st') :
    (∀ (st : σ) (s : TransformState) (c : Chunk) (f : Fault),
      s.ready_input = true → s.data = some (DataUnit.chunk c) →
      h.transform st c = Except.error f →
      work h st s = (st, { s with data := some (DataUnit.fault f), ready_input := false, ready_output := true })) ∧
    (run h σ0 inputs).outputs.length = inputs.length ∧
    (∀ (i : Nat) (c : Chunk) (f : Fault),
      inputs[i]? = some (DataUnit.chunk c) →
      h.transform (applyUnits h σ1 (inputs.take i)).1 c = Except.error f →
      (run h σ0 inputs).outputs[i]? = some (DataUnit.fault f)) ∧
    (∀ (i : Nat) (u : DataUnit), inputs[i]? = some u →
      (run h σ0 inputs).outputs[i]? =
        some (applyUnit h (applyUnits h σ1 (inputs.take i)).1 u).2) := by
  obtain ⟨σ3, hfin⟩ := hf (applyUnits h σ1 inputs).1
  have hrun : (run h σ0 inputs).outputs = (applyUnits h σ1 inputs).2 := by
    rw [run_spec h σ0 σ1 inputs hs]
    simp [finalRun, hfin]
  refine ⟨?_, ?_, ?_, ?_⟩
  · intro st s c f h1 h2 h3
    simp [work, h1, h2, h3]
  · rw [hrun, applyUnits_length]
  · intro i c f hi htr
    rw [hrun, applyUnits_getElem, hi]
    simp [applyUnit, htr]
  · intro i u hi
    rw [hrun, applyUnits_getElem, hi]
    simp

/-- Witness for C2: `flakyHooks` fails on `sampleBadChunk`, and the run of
the singleton stream carries the Fault at position 0. -/
theorem claim_c2_witness :
    (run flakyHooks 0 [DataUnit.chunk sampleBadChunk]).outputs[0]? =
      some (DataUnit.fault { kind := 9, message := "t" }) :=
  (claim_c2 flakyHooks 0 0 [DataUnit.chunk sampleBadChunk] rfl
    (fun st => ⟨st, rfl⟩)).2.2.1 0 sampleBadChunk
    { kind := 9, message := "t" } rfl rfl

/-- C3: if the onStart hook fails, the failure is raised synchronously to
the caller of `prepare` (the `Except.error` result) and is never placed on
the output port as a Fault; the node's participation is aborted before any
Data Unit has been pulled from its input port. -/
theorem claim_c3 {σ : Type} (h : Hooks σ) (σ0 : σ) (f : Fault)
    (hfail : h.onStart σ0 = Except.error f) :
    (∀ s : TransformState, s.was_on_start_called = false →
      s.output.closed = false → prepare h σ0 s = Except.error f) ∧
    (∀ inputs : List DataUnit,
      (run h σ0 inputs).failure = some f ∧
      (run h σ0 inputs).outputs = [] ∧
      (run h σ0 inputs).node.output = { slot := none, closed := false } ∧
      (run h σ0 inputs).node.data = none ∧
      (run h σ0 inputs).finished = true) := by
  constructor
  · intro s h1 h2
    simp [prepare, h1, h2, hfail]
  · intro inputs
    cases inputs with
    | nil =>
      have hrun : run h σ0 [] =
          { pending := []
          , node := { initNode with input := { slot := none, closed := true } }
          , sigma := σ0, outputs := [], finished := true,
            failure := some f } := by
        simp [run, loop, schedStep, drain, initNode, prepare, Port.tryPop,
          Port.tryPush, Port.close, hfail]
      rw [hrun]
      simp [initNode]
    | cons u l =>
      have hlen : 2 * (u :: l).length + 2 = 1 + (2 * l.length + 3) := by
        simp [List.length_cons]; omega
      have herr : schedStep h
          { pending := u :: l, node := initNode, sigma := σ0, outputs := [],
            finished := false, failure := none } =
          { pending := l
          , node := { initNode with input := { slot := some u, closed := false } }
          , sigma := σ0, outputs := [], finished := true,
            failure := some f } := by
        simp [schedStep, initNode, prepare, Port.tryPop, Port.tryPush,
          Port.close, hfail]
      have hrun : run h σ0 (u :: l) =
          { pending := l
          , node := { initNode with input := { slot := some u, closed := false } }
          , sigma := σ0, outputs := [], finished := true,
            failure := some f } := by
        show drain (loop h (2 * (u :: l).length + 2) _) = _
        rw [hlen, loop_add]
        have h1 : loop h 1
            { pending := u :: l, node := initNode, sigma := σ0,
              outputs := [], finished := false, failure := none } =
            { pending := l
            , node := { initNode with
                input := { slot := some u, closed := false } }
            , sigma := σ0, outputs := [], finished := true,
              failure := some f } := by
          show (if _ then _ else loop h 0 _) = _
          rw [if_neg (by simp)]
          exact herr
        rw [h1, loop_finished h (2 * l.length + 3) _ rfl]
        simp [drain, initNode, Port.tryPop]
      rw [hrun]
      simp [initNode]

/-- Witness for C3 at `badStartHooks` on a singleton stream. -/
theorem claim_c3_witness :
    (run badStartHooks 0 [DataUnit.chunk sampleChunk]).failure =
      some { kind := 3, message := "start" } ∧
    (run badStartHooks 0 [DataUnit.chunk sampleChunk]).outputs = [] := by
  have h := (claim_c3 badStartHooks 0 { kind := 3, message := "start" }
    rfl).2 [DataUnit.chunk sampleChunk]
  exact ⟨h.1, h.2.1⟩

/-- C4: a failure of the onFinish hook is wrapped as a Fault and delivered
as the trailing Data Unit of the output stream when the output port is still
open; when the output port is already closed the failure has no deliverable
destination and is dropped; in both cases the output port ends closed and
the node reports Finished. -/
theorem claim_c4 :
    (∀ (out : Port) (g : Fault), out.closed = true →
      placeFinishFault out g = out) ∧
    (∀ (out : Port) (g : Fault), out.closed = false → out.slot = none →
      placeFinishFault out g =
        { slot := some (DataUnit.fault g), closed := false }) ∧
    (∀ (σ : Type) (h : Hooks σ) (σ0 σ1 : σ) (inputs : List DataUnit)
      (f : Fault),
      h.onStart σ0 = Except.ok σ1 →
      h.onFinish (applyUnits h σ1 inputs).1 = Except.error f →
      (run h σ0 inputs).outputs =
        (applyUnits h σ1 inputs).2 ++ [DataUnit.fault f] ∧
      (run h σ0 inputs).node.output.closed = true ∧
      (run h σ0 inputs).node.output.slot = none ∧
      (run h σ0 inputs).finished = true) := by
  refine ⟨?_, ?_, ?_⟩
  · intro out g hc
    simp [placeFinishFault, hc]
  · intro out g hc hs
    simp [placeFinishFault, Port.tryPush, hc, hs]
  · intro σ h σ0 σ1 inputs f hs hfin
    rw [run_spec h σ0 σ1 inputs hs]
    simp [finalRun, hfin, finNode]

/-- Witness for C4: `badFinishHooks` on the empty stream delivers exactly
the trailing Fault. -/
theorem claim_c4_witness :
    (run badFinishHooks 0 ([] : List DataUnit)).outputs =
      [DataUnit.fault { kind := 5, message := "finish" }] := by
  have h := (claim_c4.2.2 Nat badFinishHooks 0 0 []
    { kind := 5, message := "finish" } rfl rfl).1
  simpa [applyUnits] using h

/-- C5: when the downstream side has closed the node's output port, the very
next `prepare` call observes the closure, closes the input side, reports
Finished without invoking any hook (the hook state `st` is returned
untouched and the status is not Ready, so the scheduler never calls `work`),
and leaves any buffered-but-unprocessed Chunk untransformed; the output
stays closed, so every later `prepare` behaves the same way. -/
theorem claim_c5 {σ : Type} (h : Hooks σ) (st : σ) (s : TransformState)
    (hc : s.output.closed = true) :
    prepare h st s =
      Except.ok (Status.Finished, st, { s with input := s.input.close }) ∧
    ({ s with input := s.input.close } : TransformState).output.closed = true ∧
    ({ s with input := s.input.close } : TransformState).data = s.data ∧
    ({ s with input := s.input.close } : TransformState).ready_input =
      s.ready_input := by
  refine ⟨by simp [prepare, hc], by simpa using hc, rfl, rfl⟩

/-- Witness for C5 at the concrete state `sClosed`, which still holds a
buffered-but-unprocessed Chunk. -/
theorem claim_c5_witness :
    prepare probeHooks 0 sClosed =
      Except.ok (Status.Finished, 0,
        { sClosed with input := { slot := none, closed := true } }) ∧
    ({ sClosed with input := { slot := none, closed := true } } :
      TransformState).data = some (DataUnit.chunk sampleChunk) := by
  have h := claim_c5 probeHooks 0 sClosed rfl
  exact ⟨h.1, rfl⟩

/-- C8: the set of Lock Handles of a SinkToStorage is append-only
(`addTableLock` only appends), and on destruction every held handle is
released exactly once, independently of the lifecycle state the node died
in. -/
theorem claim_c8 :
    (∀ (s : SinkToStorageState) (lock : TableLockHolder),
      (addTableLock s lock).table_locks = s.table_locks ++ [lock]) ∧
    (∀ s : SinkToStorageState, destroySink s = s.table_locks) ∧
    (∀ (s : SinkToStorageState) (x : TableLockHolder),
      (destroySink s).count x = s.table_locks.count x) ∧
    (∀ s s' : SinkToStorageState, s.table_locks = s'.table_locks →
      destroySink s = destroySink s') :=
  ⟨fun _ _ => rfl, fun _ => rfl, fun _ _ => rfl, fun _ _ h => h⟩

/-- Witness for C8: a Sink holding 3 handles releases the same 3 handles
whether it is destroyed in the fresh state or after a completed (possibly
faulted) run. -/
theorem claim_c8_witness :
    destroySink { node := initNode, table_locks := [⟨1⟩, ⟨2⟩, ⟨3⟩] } =
      destroySink { node := finNode, table_locks := [⟨1⟩, ⟨2⟩, ⟨3⟩] } :=
  claim_c8.2.2.2 _ _ rfl

/-- C9: a NullSinkToStorage accepts every Chunk, performs zero writes (the
written-chunk log is returned unchanged), forwards one empty Chunk per
input, and reaches Finished with `onFinish` called once input is
exhausted. -/
theorem claim_c9 (chunks : List Chunk) (w0 : List Chunk) :
    (run nullSinkHooks w0 (chunks.map DataUnit.chunk)).sigma = w0 ∧
    (run nullSinkHooks w0 (chunks.map DataUnit.chunk)).outputs =
      chunks.map (fun _ => DataUnit.chunk emptyChunk) ∧
    (run nullSinkHooks w0 (chunks.map DataUnit.chunk)).finished = true ∧
    (run nullSinkHooks w0 (chunks.map DataUnit.chunk)).failure = none ∧
    (run nullSinkHooks w0 (chunks.map DataUnit.chunk)).node = finNode := by
  rw [run_spec nullSinkHooks w0 w0 (chunks.map DataUnit.chunk) rfl,
    applyUnits_nullSink]
  refine ⟨rfl, rfl, rfl, rfl, rfl⟩

/-- C10: `CapnProtoRowInputFormat::readMessage` reads a 32-bit segment count
and throws INCORRECT_DATA whenever that count is 512 or greater, without
reading any segment sizes or message body (the result does not depend on any
byte past the count); a message is read to completion only when its segment
count is strictly less than 512. -/
theorem claim_c10 :
    (∀ (b4 rest : List Nat), b4.length = 4 → 512 ≤ u32FromBytes b4 →
      readMessage (b4 ++ rest) = Except.error ErrorCode.INCORRECT_DATA) ∧
    (∀ (buf : List Nat) (r : List Nat × List Nat),
      readMessage buf = Except.ok r → u32FromBytes (buf.take 4) < 512) := by
  constructor
  · intro b4 rest hlen hbig
    have htake : (b4 ++ rest).take 4 = b4 := by
      rw [← hlen]
      exact List.take_left b4 rest
    have hdrop : (b4 ++ rest).drop 4 = rest := by
      rw [← hlen]
      exact List.drop_left b4 rest
    have hok : readStrict 4 (b4 ++ rest) = Except.ok (b4, rest) := by
      have hle : 4 ≤ (b4 ++ rest).length := by
        rw [List.length_append, hlen]
        omega
      unfold readStrict
      rw [if_pos hle, htake, hdrop]
    simp [readMessage, hok, hbig]
  · intro buf r hok
    by_cases hlt : u32FromBytes (buf.take 4) < 512
    · exact hlt
    · exfalso
      have hge : 512 ≤ u32FromBytes (buf.take 4) := by omega
      by_cases hlen : 4 ≤ buf.length
      · have hstrict : readStrict 4 buf =
            Except.ok (buf.take 4, buf.drop 4) := by
          simp [readStrict, hlen]
        rw [readMessage, hstrict] at hok
        simp [hge] at hok
      · have hstrict : readStrict 4 buf =
            Except.error ErrorCode.CANNOT_READ_ALL_DATA := by
          simp [readStrict, hlen]
        rw [readMessage, hstrict] at hok
        cases hok

/-- Witness for C10 at the four-byte prefix encoding 512. -/
theorem claim_c10_witness :
    readMessage ([0, 2, 0, 0] ++ [9, 9, 9, 9]) =
      Except.error ErrorCode.INCORRECT_DATA :=
  claim_c10.1 [0, 2, 0, 0] [9, 9, 9, 9] rfl (by simp [u32FromBytes])

/-- C6: onStart is invoked exactly once and strictly before the first
transform call (the hook-call log of a full run is exactly one start event,
then one transform event per Chunk, then one finish event; a zero-Chunk run
logs start then finish), and onFinish runs only when the input port is
closed and empty, no output Data Unit is still buffered and no input Chunk
is pending, with the node reporting Finished in that same call. -/
theorem claim_c6 :
    (∀ inputs : List DataUnit,
      (run logHooks [] inputs).sigma =
        Event.start :: (transformEvents inputs ++ [Event.finish])) ∧
    ((run logHooks [] []).sigma = [Event.start, Event.finish]) ∧
    (∀ (σ : Type) (h : Hooks σ) (st : σ) (s : TransformState) (stat : Status)
      (st' : σ) (s' : TransformState),
      s.was_on_finish_called = false →
      prepare h st s = Except.ok (stat, st', s') →
      s'.was_on_finish_called = true →
      s.ready_output = false ∧ s.ready_input = false ∧
        s.input.closed = true ∧ s.input.slot = none ∧
        stat = Status.Finished) := by
  have hmain : ∀ inputs : List DataUnit,
      (run logHooks [] inputs).sigma =
        Event.start :: (transformEvents inputs ++ [Event.finish]) := by
    intro inputs
    rw [run_spec logHooks [] [Event.start] inputs rfl, applyUnits_log]
    simp [finalRun, logHooks]
  refine ⟨hmain, by simpa [transformEvents] using hmain [], ?_⟩
  intro σ h st s stat st' s' h0 hp h1
  by_cases hoc : s.output.closed = true
  · simp only [prepare, hoc, if_true, Except.ok.injEq, Prod.mk.injEq] at hp
    obtain ⟨he1, he2, he3⟩ := hp
    subst he3
    simp [h0] at h1
  · simp only [Bool.not_eq_true] at hoc
    cases hm : (if s.was_on_start_called = true then Except.ok st
        else h.onStart st : Except Fault σ) with
    | error f =>
      simp only [prepare, hoc, Bool.false_eq_true, if_false, hm] at hp
      exact Except.noConfusion hp
    | ok st1 =>
      by_cases hro : s.ready_output = true
      · cases hdata : s.data with
        | none =>
          simp only [prepare, hoc, Bool.false_eq_true, if_false, hm, hro,
            if_true, hdata, Except.ok.injEq, Prod.mk.injEq] at hp
          obtain ⟨he1, he2, he3⟩ := hp
          subst he3
          simp [h0] at h1
        | some u =>
          cases hpush : s.output.tryPush u with
          | some o2 =>
            simp only [prepare, hoc, Bool.false_eq_true, if_false, hm, hro,
              if_true, hdata, hpush, Except.ok.injEq, Prod.mk.injEq] at hp
            obtain ⟨he1, he2, he3⟩ := hp
            subst he3
            simp [h0] at h1
          | none =>
            simp only [prepare, hoc, Bool.false_eq_true, if_false, hm, hro,
              if_true, hdata, hpush, Except.ok.injEq, Prod.mk.injEq] at hp
            obtain ⟨he1, he2, he3⟩ := hp
            subst he3
            simp [h0] at h1
      · simp only [Bool.not_eq_true] at hro
        by_cases hri : s.ready_input = true
        · simp only [prepare, hoc, Bool.false_eq_true, if_false, hm, hro,
            hri, if_true, Except.ok.injEq, Prod.mk.injEq] at hp
          obtain ⟨he1, he2, he3⟩ := hp
          subst he3
          simp [h0] at h1
        · simp only [Bool.not_eq_true] at hri
          cases hpop : s.input.tryPop with
          | some p =>
            obtain ⟨u, in2⟩ := p
            cases u with
            | fault f =>
              simp only [prepare, hoc, Bool.false_eq_true, if_false, hm, hro,
                hri, hpop, Except.ok.injEq, Prod.mk.injEq] at hp
              obtain ⟨he1, he2, he3⟩ := hp
              subst he3
              simp [h0] at h1
            | chunk c =>
              simp only [prepare, hoc, Bool.false_eq_true, if_false, hm, hro,
                hri, hpop, Except.ok.injEq, Prod.mk.injEq] at hp
              obtain ⟨he1, he2, he3⟩ := hp
              subst he3
              simp [h0] at h1
          | none =>
            by_cases hic : s.input.closed = true
            · cases hfin : h.onFinish st1 with
              | ok st2 =>
                simp [prepare, hoc, hm, hro, hri, hpop, hic, h0, hfin] at hp
                obtain ⟨he1, he2, he3⟩ := hp
                exact ⟨hro, hri, hic, (tryPop_eq_none_iff s.input).mp hpop,
                  he1.symm⟩
              | error f =>
                simp [prepare, hoc, hm, hro, hri, hpop, hic, h0, hfin] at hp
                obtain ⟨he1, he2, he3⟩ := hp
                exact ⟨hro, hri, hic, (tryPop_eq_none_iff s.input).mp hpop,
                  he1.symm⟩
            · simp only [Bool.not_eq_true] at hic
              simp [prepare, hoc, hm, hro, hri, hpop, hic] at hp
              obtain ⟨he1, he2, he3⟩ := hp
              rw [← he3] at h1
              simp [h0] at h1


/-- Witness for C6: the onFinish branch of `prepare` taken at the concrete
state `sFin` satisfies all its structural preconditions. -/
theorem claim_c6_witness :
    sFin.ready_output = false ∧ sFin.ready_input = false ∧
      sFin.input.closed = true ∧ sFin.input.slot = none ∧
      Status.Finished = Status.Finished :=
  claim_c6.2.2 Nat probeHooks 0 sFin Status.Finished 0
    { sFin with was_on_finish_called := true
              , output := { slot := none, closed := true } } rfl rfl rfl

/-- C7: in every reachable state the node holds at most one pending input
Chunk and at most one pending output Data Unit (the counts are bounded by
one, the fresh node satisfies the exclusivity invariant `Inv`, and both
`prepare` and `work` preserve it under any interleaving). -/
theorem claim_c7 :
    (∀ s : TransformState,
      pendingInputCount s ≤ 1 ∧ pendingOutputCount s ≤ 1) ∧
    Inv initNode ∧
    (∀ (σ : Type) (h : Hooks σ) (st : σ) (s : TransformState)
      (r : Status × σ × TransformState),
      Inv s → prepare h st s = Except.ok r → Inv r.2.2) ∧
    (∀ (σ : Type) (h : Hooks σ) (st : σ) (s : TransformState),
      Inv s → Inv (work h st s).2) := by
  refine ⟨?_, ?_, ?_, ?_⟩
  · intro s
    constructor
    · unfold pendingInputCount
      split <;> omega
    · unfold pendingOutputCount
      split <;> omega
  · simp [Inv, initNode]
  · intro σ h st s r hinv hp
    by_cases hoc : s.output.closed = true
    · simp only [prepare, hoc, if_true, Except.ok.injEq] at hp
      subst hp
      simpa [Inv] using hinv
    · simp only [Bool.not_eq_true] at hoc
      cases hm : (if s.was_on_start_called = true then Except.ok st
          else h.onStart st : Except Fault σ) with
      | error f =>
        simp only [prepare, hoc, Bool.false_eq_true, if_false, hm] at hp
        exact Except.noConfusion hp
      | ok st1 =>
        by_cases hro : s.ready_output = true
        · cases hdata : s.data with
          | none =>
            simp only [prepare, hoc, Bool.false_eq_true, if_false, hm, hro,
              if_true, hdata, Except.ok.injEq] at hp
            subst hp
            exact fun hc => hinv ⟨hc.1, hro⟩
          | some u =>
            cases hpush : s.output.tryPush u with
            | some o2 =>
              simp only [prepare, hoc, Bool.false_eq_true, if_false, hm, hro,
                if_true, hdata, hpush, Except.ok.injEq] at hp
              subst hp
              simp [Inv]
            | none =>
              simp only [prepare, hoc, Bool.false_eq_true, if_false, hm, hro,
                if_true, hdata, hpush, Except.ok.injEq] at hp
              subst hp
              exact fun hc => hinv ⟨hc.1, hro⟩
        · simp only [Bool.not_eq_true] at hro
          by_cases hri : s.ready_input = true
          · simp only [prepare, hoc, Bool.false_eq_true, if_false, hm, hro,
              hri, if_true, Except.ok.injEq] at hp
            subst hp
            simp [Inv]
          · simp only [Bool.not_eq_true] at hri
            cases hpop : s.input.tryPop with
            | some p =>
              obtain ⟨u, in2⟩ := p
              cases u with
              | fault f =>
                simp only [prepare, hoc, Bool.false_eq_true, if_false, hm, hro,
                  hri, hpop, Except.ok.injEq] at hp
                subst hp
                simp [Inv, hri]
              | chunk c =>
                simp only [prepare, hoc, Bool.false_eq_true, if_false, hm, hro,
                  hri, hpop, Except.ok.injEq] at hp
                subst hp
                simp [Inv, hro]
            | none =>
              by_cases hic : s.input.closed = true
              · by_cases hwf : s.was_on_finish_called = true
                · simp [prepare, hoc, hm, hro, hri, hpop, hic, hwf] at hp
                  subst hp
                  simp [Inv]
                · simp only [Bool.not_eq_true] at hwf
                  cases hfin : h.onFinish st1 with
                  | ok st2 =>
                    simp [prepare, hoc, hm, hro, hri, hpop, hic, hwf, hfin] at hp
                    subst hp
                    simp [Inv]
                  | error f =>
                    simp [prepare, hoc, hm, hro, hri, hpop, hic, hwf, hfin] at hp
                    subst hp
                    simp [Inv]
              · simp only [Bool.not_eq_true] at hic
                simp [prepare, hoc, hm, hro, hri, hpop, hic] at hp
                subst hp
                simp [Inv]

  · intro σ h st s hinv
    by_cases hri : s.ready_input = true
    · cases hdata : s.data with
      | none =>
        simp only [work, hri, if_true, hdata]
        exact hinv
      | some u =>
        cases u with
        | chunk c =>
          cases htr : h.transform st c with
          | ok p =>
            simp [work, hri, hdata, htr, Inv]
          | error f =>
            simp [work, hri, hdata, htr, Inv]
        | fault f =>
          simp only [work, hri, if_true, hdata]
          exact hinv
    · simp only [Bool.not_eq_true] at hri
      simp only [work, hri, Bool.false_eq_true, if_false]
      exact hinv

/-- Witness for C7: the invariant is preserved by a `work` step at the
concrete state `sClosed`, which holds a pending input Chunk. -/
theorem claim_c7_witness : Inv (work probeHooks 0 sClosed).2 :=
  claim_c7.2.2.2 Nat probeHooks 0 sClosed (by simp [Inv, sClosed])

end DB
